import Mathlib

/-!
Verification of `prometheus-grafana/goapp/main.go`.

A shallow embedding of the two simulation loops of `main.go` that carry state:

* `simulateTotalRequests` (lines 67-79): the request counter loop;
* `simulateMessageQueueLength` (lines 81-106): the buffered channel `email`, its preload loop,
  the producer and the consumer goroutines and the sampler loop.

Go primitives are embedded as follows.

* Goroutines are interleaved: a step of the system is one statement of one goroutine.
* The channel `email` is embedded at two levels.
  - `Runtime.HChan`, `Runtime.chansend`, `Runtime.chanrecv` and `Runtime.step` follow the Go runtime:
    the channel is its buffer together with the queues of parked receivers and parked senders.
    A send first serves a parked receiver, else uses the buffer, else parks the sender; a receive
    first serves a parked sender (on a full buffer it takes the head and appends the element of
    that sender, so the length does not change), else uses the buffer, else parks the receiver.
    The goroutine served is woken with its operation completed.
  - `Chan`, `Chan.send`, `Chan.recv` and `step` keep only the buffer: an operation that cannot
    use the buffer is not enabled, and a goroutine waiting on the channel completes its operation
    in a step of its own.  A runtime operation that serves a parked partner is two consecutive
    steps at this level.  This is the step model in which the occupancy bound is claimed; the
    state invariants are proved at both levels (`inv_of_reachable`, `rt_inv_of_reachable`).
* `time.Sleep` takes no part in the state besides the program counter: a sleeping goroutine may
  wake at any later step.  The duration it computes is kept in the program counter.
* `rand.Intn(n)` is an input of the step that executes it (an `Int` in `[0, n)`).
* Machine integers are `Int` with explicit wrap-around to 64 bits.
* The instruments of the metrics library are taken at their contract: a counter child starts at 0
  and `Inc` adds one, a gauge child holds the last value `Set`.
-/

namespace GoApp

/-! ## Channels -/

/-- The buffer of a channel of `struct{}` values: `dataqsiz` is the capacity given to `make`,
`qcount` the number of elements currently buffered. -/
structure Chan where
  dataqsiz : Nat
  qcount : Nat
deriving DecidableEq, Repr

/-- The Go expression `make(chan struct{}, size)`: an empty channel of the given capacity. -/
def make (size : Nat) : Chan := { dataqsiz := size, qcount := 0 }

/-- The Go builtin `len(c)`: a read of the number of buffered elements. -/
def len (c : Chan) : Nat := c.qcount

/-- The Go builtin `cap(c)`. -/
def cap (c : Chan) : Nat := c.dataqsiz

/-- The buffer side of the statement `c <- struct{}{}`.  With room in the buffer one element is
added; otherwise the buffer is left as it is and the sender has to wait (`none`). -/
def Chan.send (c : Chan) : Option Chan :=
  if c.qcount < c.dataqsiz then some { c with qcount := c.qcount + 1 } else none

/-- The buffer side of the expression `<-c`.  With an element in the buffer it yields that element
and the buffer with one element less; otherwise the receiver has to wait (`none`). -/
def Chan.recv (c : Chan) : Option (Unit × Chan) :=
  if 0 < c.qcount then some ((), { c with qcount := c.qcount - 1 }) else none

/-! ## Numeric conversions -/

/-- Wrap-around of a mathematical integer to a signed 64-bit integer. -/
def wrapInt64 (x : Int) : Int := (x + 2 ^ 63) % 2 ^ 64 - 2 ^ 63

/-- The constant `time.Millisecond`, in nanoseconds. -/
def Millisecond : Int := 1000000

/-- The constant `time.Second`, in nanoseconds. -/
def Second : Int := 1000 * Millisecond

/-- The producer and consumer lines `t := time.Duration(rand.Intn(1000))` followed by the argument
`t * time.Millisecond` of `time.Sleep`, for the draw `r`: an `int64` product, in nanoseconds. -/
def sleepDuration (r : Int) : Int := wrapInt64 (wrapInt64 r * Millisecond)

/-- The Go conversion `float64(n)` of a non-negative `int`: the nearest binary64 value, ties to
even.  Up to `2 ^ 53` the conversion is exact. -/
def float64 (n : Nat) : ℚ :=
  if n ≤ 2 ^ 53 then (n : ℚ)
  else
    let e := Nat.log2 n - 52
    let q := n / 2 ^ e
    let r := n % 2 ^ e
    let up := 2 ^ (e - 1) < r ∨ (2 ^ (e - 1) = r ∧ q % 2 = 1)
    (((if up then q + 1 else q) * 2 ^ e : Nat) : ℚ)

/-! ## Instruments -/

/-- Label values of the request counter, in the order `router`, `method`, `code`. -/
abbrev Labels := String × String × String

/-- Modelled from the spec: the counter instrument `prometheus.CounterVec` is an external
collaborator absent from the source.  Per label combination it holds an accumulated value that
starts at zero. -/
structure CounterVec where
  value : Labels → Nat

/-- Modelled from the spec: `WithLabelValues(l).Inc()` of the external counter instrument adds one
to the addressed label combination and touches no other. -/
def CounterVec.Inc (c : CounterVec) (l : Labels) : CounterVec :=
  { value := fun k => if k = l then c.value k + 1 else c.value k }

/-- The fresh counter `totalRequests` built by `prometheus.NewCounterVec` (lines 18-24). -/
def totalRequests : CounterVec := { value := fun _ => 0 }

/-- Modelled from the spec: the gauge instrument `prometheus.GaugeVec` is an external collaborator
absent from the source.  Per label value it holds one overwritable number. -/
structure GaugeVec where
  value : String → ℚ

/-- Modelled from the spec: `WithLabelValues(name).Set(v)` of the external gauge instrument
overwrites the addressed value with `v` and touches no other. -/
def GaugeVec.Set (g : GaugeVec) (name : String) (v : ℚ) : GaugeVec :=
  { value := fun k => if k = name then v else g.value k }

/-- The fresh gauge `messageQueueLength` built by `prometheus.NewGaugeVec` (lines 26-32). -/
def messageQueueLength : GaugeVec := { value := fun _ => 0 }

/-! ## simulateTotalRequests (lines 67-79) -/

/-- Lines 71-74: the status code chosen from the draw `r` of `rand.Intn(100)`. -/
def code (r : Int) : String := if r < 30 then "500" else "200"

/-- One iteration of the loop of `simulateTotalRequests` (lines 69-75) with the draw `r`.  The
sleep of line 77 changes no state. -/
def tick (r : Int) (c : CounterVec) : CounterVec :=
  (c.Inc ("/user/list", "GET", "200")).Inc ("/user/add", "POST", code r)

/-- The loop of `simulateTotalRequests` run for as many iterations as there are draws. -/
def simulateTotalRequests : List Int → CounterVec → CounterVec
  | [], c => c
  | r :: rs, c => simulateTotalRequests rs (tick r c)

/-! ## simulateMessageQueueLength (lines 81-106) -/

/-- Program counter of the goroutine running `simulateMessageQueueLength` itself. -/
inductive MainPc where
  /-- At the head of the preload loop (line 83) with loop variable `i`. -/
  | loop (i : Nat)
  /-- At the first `go` statement (line 86). -/
  | goProducer
  /-- At the second `go` statement (line 93). -/
  | goConsumer
  /-- At the gauge update of the sampler loop (line 102). -/
  | sample
  /-- In `time.Sleep(500 * time.Millisecond)` (line 104). -/
  | sleep
deriving DecidableEq, Repr

/-- Program counter of the producer (lines 87-91) and of the consumer (lines 94-98). -/
inductive WorkerPc where
  /-- At the channel operation (line 88, resp. 95). -/
  | chanOp
  /-- At the draw of `rand.Intn(1000)` (line 89, resp. 96). -/
  | draw
  /-- In `time.Sleep` for `d` nanoseconds (line 90, resp. 97). -/
  | sleep (d : Int)
deriving DecidableEq, Repr

/-- State of the queue simulation: the channel `email`, the program counters of the three
goroutines (`none` for a goroutine not yet started) and the gauge. -/
structure State where
  email : Chan
  main : MainPc
  producer : Option WorkerPc
  consumer : Option WorkerPc
  gauge : GaugeVec

/-- The state right after line 82: the channel is made, nothing else has run. -/
def init : State :=
  { email := make 1000, main := .loop 0, producer := none, consumer := none,
    gauge := messageQueueLength }

/-- Line 102: `messageQueueLength.WithLabelValues("email").Set(float64(len(email)))`. -/
def samplerTick (s : State) : State :=
  { s with gauge := s.gauge.Set "email" (float64 (len s.email)) }

/-- Which goroutine takes the next step; a worker carries the value its `rand.Intn(1000)` returns
should the step be the draw. -/
inductive Goroutine where
  | main
  | producer (r : Int)
  | consumer (r : Int)
deriving DecidableEq, Repr

/-- One statement of one goroutine.  The result is `none` when that goroutine cannot take a step:
it is not started, it is parked on the channel, or `r` is not a value `rand.Intn(1000)` returns. -/
def step : Goroutine → State → Option State
  | .main, s =>
    match s.main with
    | .loop i =>
      if i < 100 then
        (s.email.send).map fun e => { s with email := e, main := .loop (i + 1) }
      else some { s with main := .goProducer }
    | .goProducer => some { s with producer := some .chanOp, main := .goConsumer }
    | .goConsumer => some { s with consumer := some .chanOp, main := .sample }
    | .sample => some { samplerTick s with main := .sleep }
    | .sleep => some { s with main := .sample }
  | .producer r, s =>
    match s.producer with
    | none => none
    | some .chanOp => (s.email.send).map fun e => { s with email := e, producer := some .draw }
    | some .draw =>
      if 0 ≤ r ∧ r < 1000 then some { s with producer := some (.sleep (sleepDuration r)) }
      else none
    | some (.sleep _) => some { s with producer := some .chanOp }
  | .consumer r, s =>
    match s.consumer with
    | none => none
    | some .chanOp =>
      (s.email.recv).map fun p => { s with email := p.2, consumer := some .draw }
    | some .draw =>
      if 0 ≤ r ∧ r < 1000 then some { s with consumer := some (.sleep (sleepDuration r)) }
      else none
    | some (.sleep _) => some { s with consumer := some .chanOp }

/-- A schedule run from a state: `none` when one of its steps cannot be taken. -/
def run : List Goroutine → State → Option State
  | [], s => some s
  | g :: gs, s => (step g s).bind (run gs)

/-- The function `simulateMessageQueueLength` run under a schedule of its three goroutines, from
the state right after line 82.  Its loops never end, so a finite schedule gives the state reached
so far; `none` is a schedule that asks a goroutine for a step it cannot take. -/
def simulateMessageQueueLength (schedule : List Goroutine) : Option State := run schedule init

/-- The states the simulation can be in: `init` and everything a step leads to from there. -/
inductive Reachable : State → Prop where
  | init : Reachable init
  | step {s t : State} (g : Goroutine) : Reachable s → step g s = some t → Reachable t

/-- The invariant of the simulation used in the proofs: the capacity of `email` stays 1000, the
occupancy never exceeds it, during the preload loop the occupancy equals the loop variable, and
no worker goroutine exists before its `go` statement has run. -/
def Inv (s : State) : Prop :=
  s.email.dataqsiz = 1000 ∧ s.email.qcount ≤ 1000 ∧
    match s.main with
    | .loop i => i ≤ 100 ∧ s.email.qcount = i ∧ s.producer = none ∧ s.consumer = none
    | .goProducer => s.email.qcount = 100 ∧ s.producer = none ∧ s.consumer = none
    | .goConsumer => s.consumer = none
    | .sample => True
    | .sleep => True

/-- The producer is parked on its send (line 88). -/
def producerBlocked (s : State) : Prop :=
  s.producer = some .chanOp ∧ ∀ r, step (.producer r) s = none

/-- The consumer is parked on its receive (line 95). -/
def consumerBlocked (s : State) : Prop :=
  s.consumer = some .chanOp ∧ ∀ r, step (.consumer r) s = none

/-! ## simulateMessageQueueLength with the wait queues of the channel -/

namespace Runtime

/-- The three goroutines of `simulateMessageQueueLength`. -/
inductive Gid where
  | main
  | producer
  | consumer
deriving DecidableEq, Repr

/-- The channel as the Go runtime keeps it: the buffer, the queue of parked receivers and the
queue of parked senders, oldest first. -/
structure HChan where
  buf : Chan
  recvq : List Gid
  sendq : List Gid
deriving DecidableEq, Repr

/-- The Go expression `make(chan struct{}, size)`: empty buffer, nobody parked. -/
def makechan (size : Nat) : HChan := { buf := make size, recvq := [], sendq := [] }

/-- Outcome of a send. -/
inductive SendResult where
  /-- A receiver was parked: it gets the element directly and is woken; the buffer is untouched. -/
  | handed (receiver : Gid) (c : HChan)
  /-- The element went into the buffer. -/
  | buffered (c : HChan)
  /-- The buffer is full: the sender is parked at the end of `sendq`. -/
  | parked (c : HChan)
deriving DecidableEq, Repr

/-- The statement `c <- struct{}{}` executed by goroutine `g`. -/
def chansend (c : HChan) (g : Gid) : SendResult :=
  match c.recvq with
  | receiver :: rest => .handed receiver { c with recvq := rest }
  | [] =>
    match c.buf.send with
    | some b => .buffered { c with buf := b }
    | none => .parked { c with sendq := c.sendq ++ [g] }

/-- Outcome of a receive. -/
inductive RecvResult where
  /-- A sender was parked: the receiver gets an element, the send of that sender is completed
  within the same operation and the sender is woken; the length of the buffer does not change. -/
  | served (sender : Gid) (c : HChan)
  /-- The element came from the buffer. -/
  | buffered (c : HChan)
  /-- The buffer is empty: the receiver is parked at the end of `recvq`. -/
  | parked (c : HChan)
deriving DecidableEq, Repr

/-- The expression `<-c` executed by goroutine `g`. -/
def chanrecv (c : HChan) (g : Gid) : RecvResult :=
  match c.sendq with
  | sender :: rest => .served sender { c with sendq := rest }
  | [] =>
    match c.buf.recv with
    | some p => .buffered { c with buf := p.2 }
    | none => .parked { c with recvq := c.recvq ++ [g] }

/-- Program counter of the goroutine running `simulateMessageQueueLength` itself. -/
inductive MainPc where
  /-- At the head of the preload loop (line 83) with loop variable `i`. -/
  | loop (i : Nat)
  /-- Parked in the send of line 84 in iteration `i`. -/
  | parked (i : Nat)
  /-- At the first `go` statement (line 86). -/
  | goProducer
  /-- At the second `go` statement (line 93). -/
  | goConsumer
  /-- At the gauge update of the sampler loop (line 102). -/
  | sample
  /-- In `time.Sleep(500 * time.Millisecond)` (line 104). -/
  | sleep
deriving DecidableEq, Repr

/-- Program counter of the producer (lines 87-91) and of the consumer (lines 94-98). -/
inductive WorkerPc where
  /-- At the channel operation (line 88, resp. 95). -/
  | chanOp
  /-- Parked in the channel operation. -/
  | parked
  /-- At the draw of `rand.Intn(1000)` (line 89, resp. 96), the channel operation completed. -/
  | draw
  /-- In `time.Sleep` for `d` nanoseconds (line 90, resp. 97). -/
  | sleep (d : Int)
deriving DecidableEq, Repr

/-- State of the queue simulation: the channel `email`, the program counters of the three
goroutines (`none` for a goroutine not yet started) and the gauge. -/
structure State where
  email : HChan
  main : MainPc
  producer : Option WorkerPc
  consumer : Option WorkerPc
  gauge : GaugeVec

/-- The state right after line 82: the channel is made, nothing else has run. -/
def init : State :=
  { email := makechan 1000, main := .loop 0, producer := none, consumer := none,
    gauge := messageQueueLength }

/-- Waking goroutine `g`, whose parked channel operation a partner has completed: it continues after
that operation. -/
def wake (g : Gid) (s : State) : State :=
  match g with
  | .main =>
    match s.main with
    | .parked i => { s with main := .loop (i + 1) }
    | _ => s
  | .producer =>
    match s.producer with
    | some .parked => { s with producer := some .draw }
    | _ => s
  | .consumer =>
    match s.consumer with
    | some .parked => { s with consumer := some .draw }
    | _ => s

/-- Line 102: `messageQueueLength.WithLabelValues("email").Set(float64(len(email)))`. -/
def samplerTick (s : State) : State :=
  { s with gauge := s.gauge.Set "email" (float64 (len s.email.buf)) }

/-- One statement of one goroutine.  The result is `none` when that goroutine cannot take a step:
it is not started, it is parked on the channel, or `r` is not a value `rand.Intn(1000)` returns. -/
def step : Goroutine → State → Option State
  | .main, s =>
    match s.main with
    | .loop i =>
      if i < 100 then
        match chansend s.email .main with
        | .handed receiver c => some (wake receiver { s with email := c, main := .loop (i + 1) })
        | .buffered c => some { s with email := c, main := .loop (i + 1) }
        | .parked c => some { s with email := c, main := .parked i }
      else some { s with main := .goProducer }
    | .parked _ => none
    | .goProducer => some { s with producer := some .chanOp, main := .goConsumer }
    | .goConsumer => some { s with consumer := some .chanOp, main := .sample }
    | .sample => some { samplerTick s with main := .sleep }
    | .sleep => some { s with main := .sample }
  | .producer r, s =>
    match s.producer with
    | none => none
    | some .chanOp =>
      match chansend s.email .producer with
      | .handed receiver c => some (wake receiver { s with email := c, producer := some .draw })
      | .buffered c => some { s with email := c, producer := some .draw }
      | .parked c => some { s with email := c, producer := some .parked }
    | some .parked => none
    | some .draw =>
      if 0 ≤ r ∧ r < 1000 then some { s with producer := some (.sleep (sleepDuration r)) }
      else none
    | some (.sleep _) => some { s with producer := some .chanOp }
  | .consumer r, s =>
    match s.consumer with
    | none => none
    | some .chanOp =>
      match chanrecv s.email .consumer with
      | .served sender c => some (wake sender { s with email := c, consumer := some .draw })
      | .buffered c => some { s with email := c, consumer := some .draw }
      | .parked c => some { s with email := c, consumer := some .parked }
    | some .parked => none
    | some .draw =>
      if 0 ≤ r ∧ r < 1000 then some { s with consumer := some (.sleep (sleepDuration r)) }
      else none
    | some (.sleep _) => some { s with consumer := some .chanOp }

/-- A schedule run from a state: `none` when one of its steps cannot be taken. -/
def run : List Goroutine → State → Option State
  | [], s => some s
  | g :: gs, s => (step g s).bind (run gs)

/-- The states the simulation can be in: `init` and everything a step leads to from there. -/
inductive Reachable : State → Prop where
  | init : Reachable init
  | step {s t : State} (g : Goroutine) : Reachable s → step g s = some t → Reachable t

/-- The schedule in which the producer runs one iteration of its loop per draw: the send of
line 88, the draw of line 89 and the end of the sleep of line 90. -/
def producerRounds : List Int → List Goroutine
  | [] => []
  | r :: rs => .producer r :: .producer r :: .producer r :: producerRounds rs

/-- The step of `g` from `s` is the consumer executing its receive (line 95). -/
def isReceive (g : Goroutine) (s : State) : Bool :=
  match g, s.consumer with
  | .consumer _, some .chanOp => true
  | _, _ => false

/-- The step of `g` from `s` is a goroutine executing a send (line 84 or line 88). -/
def isSend (g : Goroutine) (s : State) : Bool :=
  match g, s.main, s.producer with
  | .main, .loop i, _ => decide (i < 100)
  | .producer _, _, some .chanOp => true
  | _, _, _ => false

/-- No step of the schedule, run from `s`, is a receive. -/
def receiveFree : List Goroutine → State → Bool
  | [], _ => true
  | g :: gs, s =>
    !isReceive g s &&
      match step g s with
      | some t => receiveFree gs t
      | none => true

/-- No step of the schedule, run from `s`, is a send. -/
def sendFree : List Goroutine → State → Bool
  | [], _ => true
  | g :: gs, s =>
    !isSend g s &&
      match step g s with
      | some t => sendFree gs t
      | none => true

/-- Both workers have been started: the main goroutine is in the sampler loop. -/
def started (s : State) : Prop := s.main = .sample ∨ s.main = .sleep

/-- The producer has been started and the preload loop is over: the main goroutine is at the
second `go` statement or in the sampler loop. -/
def producerStarted (s : State) : Prop :=
  s.main = .goConsumer ∨ s.main = .sample ∨ s.main = .sleep

/-- The producer is parked on the full channel, alone in `sendq`, and no receiver is parked. -/
def producerParked (s : State) : Prop :=
  producerStarted s ∧ s.producer = some .parked ∧ s.email.sendq = [.producer] ∧
    s.email.recvq = []

/-- The invariant of the simulation with wait queues used in the proofs: the capacity of `email`
stays 1000 and the occupancy never exceeds it; `sendq` holds exactly the producer when it is
parked, which happens only on the full channel; `recvq` holds exactly the consumer when it is
parked, which happens only on the empty channel; the main goroutine is never parked; during the
preload loop the occupancy equals the loop variable; and a worker exists exactly from its `go`
statement on. -/
def Inv (s : State) : Prop :=
  s.email.buf.dataqsiz = 1000 ∧ s.email.buf.qcount ≤ 1000 ∧
    s.email.sendq = (if s.producer = some .parked then [.producer] else []) ∧
    s.email.recvq = (if s.consumer = some .parked then [.consumer] else []) ∧
    (s.producer = some .parked → s.email.buf.qcount = 1000) ∧
    (s.consumer = some .parked → s.email.buf.qcount = 0) ∧
    match s.main with
    | .loop i => i ≤ 100 ∧ s.email.buf.qcount = i ∧ s.producer = none ∧ s.consumer = none
    | .parked _ => False
    | .goProducer => s.email.buf.qcount = 100 ∧ s.producer = none ∧ s.consumer = none
    | .goConsumer => s.producer ≠ none ∧ s.consumer = none
    | .sample => s.producer ≠ none ∧ s.consumer ≠ none
    | .sleep => s.producer ≠ none ∧ s.consumer ≠ none

/-- The consumer is parked on the empty channel, alone in `recvq`, and no sender is parked. -/
def consumerParked (s : State) : Prop :=
  started s ∧ s.consumer = some .parked ∧ s.email.recvq = [.consumer] ∧ s.email.sendq = [] ∧
    s.email.buf.qcount = 0

/-- The state `s` with the occupancy of `email` set to `n`. -/
def withOccupancy (s : State) (n : Nat) : State :=
  { s with email := { s.email with buf := { s.email.buf with qcount := n } } }

/-- The scenario of capacity 5 and preload 2: both workers at their channel operation, the main
goroutine in the sampler loop, nobody parked. -/
def scenario : State :=
  { email := { buf := { dataqsiz := 5, qcount := 2 }, recvq := [], sendq := [] },
    main := .sample, producer := some .chanOp, consumer := some .chanOp,
    gauge := messageQueueLength }

/-- The state after the preload loop and both `go` statements: occupancy 100, both workers at
their channel operation, the main goroutine at the head of the sampler loop. -/
def afterStart : State :=
  { email := { buf := { dataqsiz := 1000, qcount := 100 }, recvq := [], sendq := [] },
    main := .sample, producer := some .chanOp, consumer := some .chanOp,
    gauge := messageQueueLength }

/-- The state in which the producer, having filled the channel, is parked in the send of line 88
and the consumer is about to execute the receive of line 95. -/
def fullParked : State :=
  { email := { buf := { dataqsiz := 1000, qcount := 1000 }, recvq := [], sendq := [.producer] },
    main := .sample, producer := some .parked, consumer := some .chanOp,
    gauge := messageQueueLength }

end Runtime

/-! ## Channel lemmas -/

theorem Chan.send_of_lt {c : Chan} (h : c.qcount < c.dataqsiz) :
    c.send = some { c with qcount := c.qcount + 1 } := by
  simp [Chan.send, h]

theorem Chan.send_of_full {c : Chan} (h : c.dataqsiz ≤ c.qcount) : c.send = none := by
  simp [Chan.send, Nat.not_lt.mpr h]

theorem Chan.recv_of_pos {c : Chan} (h : 0 < c.qcount) :
    c.recv = some ((), { c with qcount := c.qcount - 1 }) := by
  simp [Chan.recv, h]

theorem Chan.recv_of_empty {c : Chan} (h : c.qcount = 0) : c.recv = none := by
  simp [Chan.recv, h]

/-! ## The invariant of the queue simulation -/

theorem inv_init : Inv init := by
  refine ⟨rfl, ?_, ?_⟩
  · simp [init, make]
  · simp [init, make]

theorem inv_step {s t : State} (g : Goroutine) (hI : Inv s) (hst : step g s = some t) : Inv t := by
  obtain ⟨email, main, producer, consumer, gauge⟩ := s
  obtain ⟨hcap, hle, hpc⟩ := hI
  simp only at hcap hle
  cases g with
  | main =>
    cases main with
    | loop i =>
      simp only at hpc
      obtain ⟨hi, hq, hp, hc⟩ := hpc
      by_cases hlt : i < 100
      · have hroom : email.qcount < email.dataqsiz := by omega
        simp only [step, hlt, if_true, Chan.send_of_lt hroom, Option.map_some',
          Option.some.injEq] at hst
        subst hst
        refine ⟨hcap, ?_, ?_, ?_, hp, hc⟩ <;> (try simp only) <;> omega
      · simp only [step, hlt, if_false, Option.some.injEq] at hst
        subst hst
        refine ⟨hcap, hle, ?_, hp, hc⟩
        (try simp only)
        omega
    | goProducer =>
      simp only [step, Option.some.injEq] at hst
      subst hst
      exact ⟨hcap, hle, hpc.2.2⟩
    | goConsumer =>
      simp only [step, Option.some.injEq] at hst
      subst hst
      exact ⟨hcap, hle, trivial⟩
    | sample =>
      simp only [step, samplerTick, Option.some.injEq] at hst
      subst hst
      exact ⟨hcap, hle, trivial⟩
    | sleep =>
      simp only [step, Option.some.injEq] at hst
      subst hst
      exact ⟨hcap, hle, trivial⟩
  | producer r =>
    cases producer with
    | none => simp [step] at hst
    | some pc =>
      have hmain : main = .goConsumer ∨ main = .sample ∨ main = .sleep := by
        cases main with
        | loop i => exact absurd hpc.2.2.1 (by simp)
        | goProducer => exact absurd hpc.2.1 (by simp)
        | goConsumer => exact Or.inl rfl
        | sample => exact Or.inr (Or.inl rfl)
        | sleep => exact Or.inr (Or.inr rfl)
      cases pc with
      | chanOp =>
        by_cases hroom : email.qcount < email.dataqsiz
        · simp only [step, Chan.send_of_lt hroom, Option.map_some', Option.some.injEq] at hst
          subst hst
          refine ⟨hcap, by (try simp only); omega, ?_⟩
          rcases hmain with h | h | h <;> subst h <;> exact hpc
        · simp [step, Chan.send, hroom] at hst
      | draw =>
        by_cases hr : 0 ≤ r ∧ r < 1000
        · simp only [step, hr, and_self, if_true, Option.some.injEq] at hst
          subst hst
          refine ⟨hcap, hle, ?_⟩
          rcases hmain with h | h | h <;> subst h <;> exact hpc
        · simp [step, hr] at hst
      | sleep d =>
        simp only [step, Option.some.injEq] at hst
        subst hst
        refine ⟨hcap, hle, ?_⟩
        rcases hmain with h | h | h <;> subst h <;> exact hpc
  | consumer r =>
    cases consumer with
    | none => simp [step] at hst
    | some pc =>
      have hmain : main = .sample ∨ main = .sleep := by
        cases main with
        | loop i => exact absurd hpc.2.2.2 (by simp)
        | goProducer => exact absurd hpc.2.2 (by simp)
        | goConsumer => exact absurd hpc (by simp)
        | sample => exact Or.inl rfl
        | sleep => exact Or.inr rfl
      cases pc with
      | chanOp =>
        by_cases hpos : 0 < email.qcount
        · simp only [step, Chan.recv_of_pos hpos, Option.map_some', Option.some.injEq] at hst
          subst hst
          refine ⟨hcap, by (try simp only); omega, ?_⟩
          rcases hmain with h | h <;> subst h <;> trivial
        · simp [step, Chan.recv, hpos] at hst
      | draw =>
        by_cases hr : 0 ≤ r ∧ r < 1000
        · simp only [step, hr, and_self, if_true, Option.some.injEq] at hst
          subst hst
          refine ⟨hcap, hle, ?_⟩
          rcases hmain with h | h <;> subst h <;> trivial
        · simp [step, hr] at hst
      | sleep d =>
        simp only [step, Option.some.injEq] at hst
        subst hst
        refine ⟨hcap, hle, ?_⟩
        rcases hmain with h | h <;> subst h <;> trivial

theorem inv_of_reachable {s : State} (h : Reachable s) : Inv s := by
  induction h with
  | init => exact inv_init
  | step g _ hst ih => exact inv_step g ih hst

theorem run_append (gs hs : List Goroutine) :
    ∀ s : State, run (gs ++ hs) s = (run gs s).bind (run hs) := by
  induction gs with
  | nil => intro s; rfl
  | cons g rest ih =>
    intro s
    cases hst : step g s with
    | none => simp [run, hst]
    | some t => simp [run, hst, ih t]

theorem reachable_of_run (gs : List Goroutine) :
    ∀ s t : State, Reachable s → run gs s = some t → Reachable t := by
  induction gs with
  | nil =>
    intro s t hs h
    simp only [run, Option.some.injEq] at h
    exact h ▸ hs
  | cons g rest ih =>
    intro s t hs h
    cases hst : step g s with
    | none => simp [run, hst] at h
    | some u =>
      simp only [run, hst, Option.some_bind] at h
      exact ih u t (Reachable.step g hs hst) h

theorem step_main_loop (s : State) (i : Nat) (hm : s.main = .loop i) (hi : i < 100)
    (hroom : s.email.qcount < s.email.dataqsiz) :
    step .main s =
      some { s with email := { s.email with qcount := s.email.qcount + 1 }, main := .loop (i + 1) } := by
  obtain ⟨email, main, producer, consumer, gauge⟩ := s
  simp only at hm hroom
  subst hm
  simp [step, hi, Chan.send_of_lt hroom]

theorem run_preload (i : Nat) (hi : i ≤ 100) :
    run (List.replicate i Goroutine.main) init =
      some { init with email := { dataqsiz := 1000, qcount := i }, main := .loop i } := by
  induction i with
  | zero => rfl
  | succ n ih =>
    rw [List.replicate_succ', run_append, ih (by omega), Option.some_bind]
    simp only [run]
    rw [step_main_loop _ n rfl (by omega) (by simp only; omega)]
    rfl

theorem send_none_of_step_producer {s : State} {r : Int} (hp : s.producer = some .chanOp)
    (h : step (.producer r) s = none) : s.email.send = none := by
  obtain ⟨email, main, producer, consumer, gauge⟩ := s
  simp only at hp
  subst hp
  simpa [step] using h

theorem recv_none_of_step_consumer {s : State} {r : Int} (hc : s.consumer = some .chanOp)
    (h : step (.consumer r) s = none) : s.email.recv = none := by
  obtain ⟨email, main, producer, consumer, gauge⟩ := s
  simp only at hc
  subst hc
  simpa [step] using h

theorem wrapInt64_of_range {x : Int} (h0 : -2 ^ 63 ≤ x) (h1 : x < 2 ^ 63) : wrapInt64 x = x := by
  unfold wrapInt64
  omega

theorem sleepDuration_eq {r : Int} (h0 : 0 ≤ r) (h1 : r < 1000) :
    sleepDuration r = r * 1000000 := by
  unfold sleepDuration Millisecond
  rw [wrapInt64_of_range (x := r) (by omega) (by omega)]
  exact wrapInt64_of_range (by omega) (by omega)

theorem Inc_value_self (c : CounterVec) (l : Labels) : (c.Inc l).value l = c.value l + 1 := by
  simp [CounterVec.Inc]

theorem Inc_value_of_ne (c : CounterVec) {l k : Labels} (h : k ≠ l) :
    (c.Inc l).value k = c.value k := by
  simp [CounterVec.Inc, h]

theorem Inc_value_ge (c : CounterVec) (l k : Labels) : c.value k ≤ (c.Inc l).value k := by
  unfold CounterVec.Inc
  by_cases h : k = l
  · simp [h]
  · simp [h]

theorem tick_value_list (r : Int) (c : CounterVec) :
    (tick r c).value ("/user/list", "GET", "200") = c.value ("/user/list", "GET", "200") + 1 := by
  unfold tick
  rw [Inc_value_of_ne _ (by simp), Inc_value_self]

theorem tick_value_ge (r : Int) (c : CounterVec) (l : Labels) :
    c.value l ≤ (tick r c).value l :=
  Nat.le_trans (Inc_value_ge c _ l) (Inc_value_ge _ _ l)

theorem simulateTotalRequests_value_list (draws : List Int) :
    ∀ c : CounterVec, (simulateTotalRequests draws c).value ("/user/list", "GET", "200") =
      c.value ("/user/list", "GET", "200") + draws.length := by
  induction draws with
  | nil => intro c; rfl
  | cons r rest ih =>
    intro c
    rw [simulateTotalRequests, ih, tick_value_list, List.length_cons]
    omega

theorem simulateTotalRequests_value_ge (draws : List Int) (l : Labels) :
    ∀ c : CounterVec, c.value l ≤ (simulateTotalRequests draws c).value l := by
  induction draws with
  | nil => intro c; exact Nat.le_refl _
  | cons r rest ih =>
    intro c
    exact Nat.le_trans (tick_value_ge r c l) (ih (tick r c))

theorem simulateTotalRequests_append (d1 d2 : List Int) :
    ∀ c : CounterVec,
      simulateTotalRequests (d1 ++ d2) c = simulateTotalRequests d2 (simulateTotalRequests d1 c) := by
  induction d1 with
  | nil => intro c; rfl
  | cons r rest ih => intro c; exact ih (tick r c)

theorem float64_of_le {n : Nat} (h : n ≤ 2 ^ 53) : float64 n = (n : ℚ) := by
  unfold float64
  rw [if_pos h]

/-! ## Lemmas on the runtime level -/

theorem rt_run_append (gs hs : List Goroutine) :
    ∀ s : Runtime.State, Runtime.run (gs ++ hs) s = (Runtime.run gs s).bind (Runtime.run hs) := by
  induction gs with
  | nil => intro s; rfl
  | cons g rest ih =>
    intro s
    cases hst : Runtime.step g s with
    | none => simp [Runtime.run, hst]
    | some t => simp [Runtime.run, hst, ih t]

theorem rt_reachable_of_run (gs : List Goroutine) :
    ∀ s t : Runtime.State, Runtime.Reachable s → Runtime.run gs s = some t →
      Runtime.Reachable t := by
  induction gs with
  | nil =>
    intro s t hs h
    simp only [Runtime.run, Option.some.injEq] at h
    exact h ▸ hs
  | cons g rest ih =>
    intro s t hs h
    cases hst : Runtime.step g s with
    | none => simp [Runtime.run, hst] at h
    | some u =>
      simp only [Runtime.run, hst, Option.some_bind] at h
      exact ih u t (Runtime.Reachable.step g hs hst) h

theorem rt_chansend_buffered {c : Runtime.HChan} (g : Runtime.Gid) (hrq : c.recvq = [])
    (hroom : c.buf.qcount < c.buf.dataqsiz) :
    Runtime.chansend c g =
      .buffered { c with buf := { c.buf with qcount := c.buf.qcount + 1 } } := by
  obtain ⟨buf, recvq, sendq⟩ := c
  simp only at hrq hroom
  subst hrq
  simp [Runtime.chansend, Chan.send_of_lt hroom]

theorem rt_chansend_parked {c : Runtime.HChan} (g : Runtime.Gid) (hrq : c.recvq = [])
    (hfull : c.buf.dataqsiz ≤ c.buf.qcount) :
    Runtime.chansend c g = .parked { c with sendq := c.sendq ++ [g] } := by
  obtain ⟨buf, recvq, sendq⟩ := c
  simp only at hrq hfull
  subst hrq
  simp [Runtime.chansend, Chan.send_of_full hfull]

theorem rt_chanrecv_buffered {c : Runtime.HChan} (g : Runtime.Gid) (hsq : c.sendq = [])
    (hpos : 0 < c.buf.qcount) :
    Runtime.chanrecv c g =
      .buffered { c with buf := { c.buf with qcount := c.buf.qcount - 1 } } := by
  obtain ⟨buf, recvq, sendq⟩ := c
  simp only at hsq hpos
  subst hsq
  simp [Runtime.chanrecv, Chan.recv_of_pos hpos]

theorem rt_chanrecv_parked {c : Runtime.HChan} (g : Runtime.Gid) (hsq : c.sendq = [])
    (hempty : c.buf.qcount = 0) :
    Runtime.chanrecv c g = .parked { c with recvq := c.recvq ++ [g] } := by
  obtain ⟨buf, recvq, sendq⟩ := c
  simp only at hsq hempty
  subst hsq
  simp [Runtime.chanrecv, Chan.recv_of_empty hempty]

theorem rt_step_producer_buffered (s : Runtime.State) (r : Int)
    (hp : s.producer = some .chanOp) (hrq : s.email.recvq = [])
    (hroom : s.email.buf.qcount < s.email.buf.dataqsiz) :
    Runtime.step (.producer r) s =
      some { Runtime.withOccupancy s (s.email.buf.qcount + 1) with producer := some .draw } := by
  obtain ⟨email, main, producer, consumer, gauge⟩ := s
  simp only at hp hrq hroom
  subst hp
  simp [Runtime.step, rt_chansend_buffered .producer hrq hroom, Runtime.withOccupancy]

theorem rt_step_producer_parked (s : Runtime.State) (r : Int)
    (hp : s.producer = some .chanOp) (hrq : s.email.recvq = [])
    (hfull : s.email.buf.dataqsiz ≤ s.email.buf.qcount) :
    Runtime.step (.producer r) s =
      some { s with email := { s.email with sendq := s.email.sendq ++ [.producer] },
                    producer := some .parked } := by
  obtain ⟨email, main, producer, consumer, gauge⟩ := s
  simp only at hp hrq hfull
  subst hp
  simp [Runtime.step, rt_chansend_parked .producer hrq hfull]

theorem rt_step_consumer_buffered (s : Runtime.State) (r : Int)
    (hc : s.consumer = some .chanOp) (hsq : s.email.sendq = [])
    (hpos : 0 < s.email.buf.qcount) :
    Runtime.step (.consumer r) s =
      some { Runtime.withOccupancy s (s.email.buf.qcount - 1) with consumer := some .draw } := by
  obtain ⟨email, main, producer, consumer, gauge⟩ := s
  simp only at hc hsq hpos
  subst hc
  simp [Runtime.step, rt_chanrecv_buffered .consumer hsq hpos, Runtime.withOccupancy]

theorem rt_step_consumer_parked (s : Runtime.State) (r : Int)
    (hc : s.consumer = some .chanOp) (hsq : s.email.sendq = [])
    (hempty : s.email.buf.qcount = 0) :
    Runtime.step (.consumer r) s =
      some { s with email := { s.email with recvq := s.email.recvq ++ [.consumer] },
                    consumer := some .parked } := by
  obtain ⟨email, main, producer, consumer, gauge⟩ := s
  simp only at hc hsq hempty
  subst hc
  simp [Runtime.step, rt_chanrecv_parked .consumer hsq hempty]

theorem rt_step_consumer_served (s : Runtime.State) (r : Int)
    (hc : s.consumer = some .chanOp) (hsq : s.email.sendq = [.producer])
    (hp : s.producer = some .parked) :
    Runtime.step (.consumer r) s =
      some { s with email := { s.email with sendq := [] }, producer := some .draw,
                    consumer := some .draw } := by
  obtain ⟨⟨buf, recvq, sendq⟩, main, producer, consumer, gauge⟩ := s
  simp only at hc hsq hp
  subst hc hsq hp
  simp [Runtime.step, Runtime.chanrecv, Runtime.wake]

theorem rt_step_producer_handed (s : Runtime.State) (r : Int)
    (hp : s.producer = some .chanOp) (hrq : s.email.recvq = [.consumer])
    (hc : s.consumer = some .parked) :
    Runtime.step (.producer r) s =
      some { s with email := { s.email with recvq := [] }, producer := some .draw,
                    consumer := some .draw } := by
  obtain ⟨⟨buf, recvq, sendq⟩, main, producer, consumer, gauge⟩ := s
  simp only at hc hrq hp
  subst hc hrq hp
  simp [Runtime.step, Runtime.chansend, Runtime.wake]

theorem rt_producer_round (s : Runtime.State) (r : Int) (h0 : 0 ≤ r) (h1 : r < 1000)
    (hp : s.producer = some .chanOp) (hrq : s.email.recvq = [])
    (hroom : s.email.buf.qcount < s.email.buf.dataqsiz) :
    Runtime.run [.producer r, .producer r, .producer r] s =
      some (Runtime.withOccupancy s (s.email.buf.qcount + 1)) := by
  obtain ⟨email, main, producer, consumer, gauge⟩ := s
  simp only at hp hrq hroom
  subst hp
  simp [Runtime.run, Runtime.step, rt_chansend_buffered .producer hrq hroom,
    Runtime.withOccupancy, h0, h1]

theorem rt_run_producerRounds (rs : List Int) :
    ∀ s : Runtime.State, s.producer = some .chanOp → s.email.recvq = [] →
      (∀ r ∈ rs, 0 ≤ r ∧ r < 1000) →
      s.email.buf.qcount + rs.length ≤ s.email.buf.dataqsiz →
      Runtime.run (Runtime.producerRounds rs) s =
        some (Runtime.withOccupancy s (s.email.buf.qcount + rs.length)) := by
  induction rs with
  | nil =>
    intro s _ _ _ _
    rfl
  | cons r rest ih =>
    intro s hp hrq hr h
    have hr0 := hr r (List.mem_cons_self _ _)
    simp only [List.length_cons] at h
    have hround := rt_producer_round s r hr0.1 hr0.2 hp hrq (by omega)
    have hsplit : Runtime.producerRounds (r :: rest) =
        [.producer r, .producer r, .producer r] ++ Runtime.producerRounds rest := rfl
    rw [hsplit, rt_run_append, hround, Option.some_bind,
      ih (Runtime.withOccupancy s (s.email.buf.qcount + 1)) hp hrq
        (fun q hq => hr q (List.mem_cons_of_mem _ hq)) (by simp only [Runtime.withOccupancy]; omega)]
    simp only [Runtime.withOccupancy, List.length_cons, Option.some.injEq]
    congr 3
    omega

theorem rt_producerParked_step {s t : Runtime.State} (g : Goroutine)
    (hJ : Runtime.producerParked s) (hg : Runtime.isReceive g s = false)
    (hst : Runtime.step g s = some t) : Runtime.producerParked t ∧ t.email = s.email := by
  obtain ⟨email, main, producer, consumer, gauge⟩ := s
  obtain ⟨hm, hp, hsq, hrq⟩ := hJ
  simp only [Runtime.producerStarted] at hm
  simp only at hp hsq hrq
  subst hp
  cases g with
  | main =>
    rcases hm with hm | hm | hm <;> subst hm
    · simp only [Runtime.step, Option.some.injEq] at hst
      subst hst
      exact ⟨⟨Or.inr (Or.inl rfl), rfl, hsq, hrq⟩, rfl⟩
    · simp only [Runtime.step, Runtime.samplerTick, Option.some.injEq] at hst
      subst hst
      exact ⟨⟨Or.inr (Or.inr rfl), rfl, hsq, hrq⟩, rfl⟩
    · simp only [Runtime.step, Option.some.injEq] at hst
      subst hst
      exact ⟨⟨Or.inr (Or.inl rfl), rfl, hsq, hrq⟩, rfl⟩
  | producer r => simp [Runtime.step] at hst
  | consumer r =>
    cases consumer with
    | none => simp [Runtime.step] at hst
    | some pc =>
      cases pc with
      | chanOp => simp [Runtime.isReceive] at hg
      | parked => simp [Runtime.step] at hst
      | draw =>
        by_cases hr : 0 ≤ r ∧ r < 1000
        · simp only [Runtime.step, hr, and_self, if_true, Option.some.injEq] at hst
          subst hst
          exact ⟨⟨hm, rfl, hsq, hrq⟩, rfl⟩
        · simp [Runtime.step, hr] at hst
      | sleep d =>
        simp only [Runtime.step, Option.some.injEq] at hst
        subst hst
        exact ⟨⟨hm, rfl, hsq, hrq⟩, rfl⟩

theorem rt_producerParked_run (gs : List Goroutine) :
    ∀ s t : Runtime.State, Runtime.producerParked s → Runtime.receiveFree gs s = true →
      Runtime.run gs s = some t → Runtime.producerParked t ∧ t.email = s.email := by
  induction gs with
  | nil =>
    intro s t hJ _ h
    simp only [Runtime.run, Option.some.injEq] at h
    subst h
    exact ⟨hJ, rfl⟩
  | cons g rest ih =>
    intro s t hJ hfree h
    cases hst : Runtime.step g s with
    | none => simp [Runtime.run, hst] at h
    | some u =>
      simp only [Runtime.run, hst, Option.some_bind] at h
      simp only [Runtime.receiveFree, hst, Bool.and_eq_true, Bool.not_eq_true'] at hfree
      obtain ⟨hJu, hu⟩ := rt_producerParked_step g hJ hfree.1 hst
      obtain ⟨hJt, ht⟩ := ih u t hJu hfree.2 h
      exact ⟨hJt, ht.trans hu⟩

theorem rt_consumerParked_step {s t : Runtime.State} (g : Goroutine)
    (hK : Runtime.consumerParked s) (hg : Runtime.isSend g s = false)
    (hst : Runtime.step g s = some t) : Runtime.consumerParked t ∧ t.email = s.email := by
  obtain ⟨email, main, producer, consumer, gauge⟩ := s
  obtain ⟨hm, hc, hrq, hsq, hq⟩ := hK
  simp only [Runtime.started] at hm
  simp only at hc hsq hrq hq
  subst hc
  cases g with
  | main =>
    rcases hm with hm | hm <;> subst hm
    · simp only [Runtime.step, Runtime.samplerTick, Option.some.injEq] at hst
      subst hst
      exact ⟨⟨Or.inr rfl, rfl, hrq, hsq, hq⟩, rfl⟩
    · simp only [Runtime.step, Option.some.injEq] at hst
      subst hst
      exact ⟨⟨Or.inl rfl, rfl, hrq, hsq, hq⟩, rfl⟩
  | consumer r => simp [Runtime.step] at hst
  | producer r =>
    cases producer with
    | none => simp [Runtime.step] at hst
    | some pc =>
      cases pc with
      | chanOp =>
        rcases hm with hm | hm <;> subst hm <;> simp [Runtime.isSend] at hg
      | parked => simp [Runtime.step] at hst
      | draw =>
        by_cases hr : 0 ≤ r ∧ r < 1000
        · simp only [Runtime.step, hr, and_self, if_true, Option.some.injEq] at hst
          subst hst
          exact ⟨⟨hm, rfl, hrq, hsq, hq⟩, rfl⟩
        · simp [Runtime.step, hr] at hst
      | sleep d =>
        simp only [Runtime.step, Option.some.injEq] at hst
        subst hst
        exact ⟨⟨hm, rfl, hrq, hsq, hq⟩, rfl⟩

theorem rt_consumerParked_run (gs : List Goroutine) :
    ∀ s t : Runtime.State, Runtime.consumerParked s → Runtime.sendFree gs s = true →
      Runtime.run gs s = some t → Runtime.consumerParked t ∧ t.email = s.email := by
  induction gs with
  | nil =>
    intro s t hK _ h
    simp only [Runtime.run, Option.some.injEq] at h
    subst h
    exact ⟨hK, rfl⟩
  | cons g rest ih =>
    intro s t hK hfree h
    cases hst : Runtime.step g s with
    | none => simp [Runtime.run, hst] at h
    | some u =>
      simp only [Runtime.run, hst, Option.some_bind] at h
      simp only [Runtime.sendFree, hst, Bool.and_eq_true, Bool.not_eq_true'] at hfree
      obtain ⟨hKu, hu⟩ := rt_consumerParked_step g hK hfree.1 hst
      obtain ⟨hKt, ht⟩ := ih u t hKu hfree.2 h
      exact ⟨hKt, ht.trans hu⟩

theorem rt_receiveFree_producerRounds (rs : List Int) :
    ∀ s : Runtime.State, Runtime.receiveFree (Runtime.producerRounds rs) s = true := by
  induction rs with
  | nil => intro s; rfl
  | cons r rest ih =>
    intro s
    have hnot : ∀ u : Runtime.State, Runtime.isReceive (.producer r) u = false := fun u => rfl
    simp only [Runtime.producerRounds, Runtime.receiveFree, hnot, Bool.not_false, Bool.true_and]
    cases Runtime.step (.producer r) s with
    | none => rfl
    | some u1 =>
      simp only
      cases Runtime.step (.producer r) u1 with
      | none => rfl
      | some u2 =>
        simp only
        cases Runtime.step (.producer r) u2 with
        | none => rfl
        | some u3 => exact ih u3

theorem rt_step_main_loop (s : Runtime.State) (i : Nat) (hm : s.main = .loop i) (hi : i < 100)
    (hrq : s.email.recvq = []) (hroom : s.email.buf.qcount < s.email.buf.dataqsiz) :
    Runtime.step .main s =
      some { Runtime.withOccupancy s (s.email.buf.qcount + 1) with main := .loop (i + 1) } := by
  obtain ⟨email, main, producer, consumer, gauge⟩ := s
  simp only at hm hrq hroom
  subst hm
  simp [Runtime.step, hi, rt_chansend_buffered .main hrq hroom, Runtime.withOccupancy]

theorem rt_run_preload (i : Nat) (hi : i ≤ 100) :
    Runtime.run (List.replicate i Goroutine.main) Runtime.init =
      some { Runtime.withOccupancy Runtime.init i with main := .loop i } := by
  induction i with
  | zero => rfl
  | succ n ih =>
    rw [List.replicate_succ', rt_run_append, ih (by omega), Option.some_bind]
    simp only [Runtime.run]
    rw [rt_step_main_loop _ n rfl (by omega) rfl
      (by simp only [Runtime.withOccupancy, Runtime.init, Runtime.makechan, make]; omega)]
    rfl

theorem rt_step_producer_of_parked (s : Runtime.State) (r : Int)
    (hp : s.producer = some .parked) : Runtime.step (.producer r) s = none := by
  obtain ⟨email, main, producer, consumer, gauge⟩ := s
  simp only at hp
  subst hp
  rfl

theorem rt_step_consumer_of_parked (s : Runtime.State) (r : Int)
    (hc : s.consumer = some .parked) : Runtime.step (.consumer r) s = none := by
  obtain ⟨email, main, producer, consumer, gauge⟩ := s
  simp only at hc
  subst hc
  rfl

theorem rt_run_afterStart :
    Runtime.run (List.replicate 103 Goroutine.main) Runtime.init = some Runtime.afterStart := by
  have h : List.replicate 103 Goroutine.main =
      List.replicate 100 Goroutine.main ++ [.main, .main, .main] :=
    List.replicate_add 100 3 Goroutine.main
  rw [h, rt_run_append, rt_run_preload 100 (Nat.le_refl _)]
  rfl

theorem rt_run_fullParked :
    Runtime.run (Runtime.producerRounds (List.replicate 900 0) ++ [.producer 0])
      Runtime.afterStart = some Runtime.fullParked := by
  rw [rt_run_append, rt_run_producerRounds (List.replicate 900 0) Runtime.afterStart rfl rfl
    (fun r hr => by rw [List.eq_of_mem_replicate hr]; decide)
    (by rw [List.length_replicate]; decide)]
  rw [List.length_replicate]
  rfl

theorem rt_reachable_afterStart : Runtime.Reachable Runtime.afterStart :=
  rt_reachable_of_run _ _ _ Runtime.Reachable.init rt_run_afterStart

theorem rt_reachable_fullParked : Runtime.Reachable Runtime.fullParked :=
  rt_reachable_of_run _ _ _ rt_reachable_afterStart rt_run_fullParked

theorem rt_inv_init : Runtime.Inv Runtime.init := by
  simp [Runtime.Inv, Runtime.init, Runtime.makechan, make]

theorem rt_inv_step {s t : Runtime.State} (g : Goroutine) (hI : Runtime.Inv s)
    (hst : Runtime.step g s = some t) : Runtime.Inv t := by
  obtain ⟨⟨⟨dataqsiz, qcount⟩, recvq, sendq⟩, main, producer, consumer, gauge⟩ := s
  obtain ⟨hcap, hle, hsq, hrq, hpf, hce, hpc⟩ := hI
  simp only at hcap hle hsq hrq hpf hce hpc
  subst hcap
  cases g with
  | main =>
    cases main with
    | loop i =>
      obtain ⟨hi, hq, hp, hc⟩ := hpc
      subst hp hc hq
      simp only [reduceCtorEq, if_false] at hsq hrq
      subst hsq hrq
      by_cases hlt : qcount < 100
      · have hroom : qcount < 1000 := by omega
        simp only [Runtime.step, hlt, if_true, Runtime.chansend, Chan.send, hroom,
          Option.some.injEq] at hst
        subst hst
        simp [Runtime.Inv]
        omega
      · simp only [Runtime.step, hlt, if_false, Option.some.injEq] at hst
        subst hst
        simp [Runtime.Inv]
        omega
    | parked i => exact absurd hpc (by simp)
    | goProducer =>
      obtain ⟨hq, hp, hc⟩ := hpc
      subst hp hc hq
      simp only [reduceCtorEq, if_false] at hsq hrq
      subst hsq hrq
      simp only [Runtime.step, Option.some.injEq] at hst
      subst hst
      simp [Runtime.Inv]
    | goConsumer =>
      obtain ⟨hp, hc⟩ := hpc
      subst hc
      simp only [reduceCtorEq, if_false] at hrq
      subst hrq
      simp only [Runtime.step, Option.some.injEq] at hst
      subst hst
      exact ⟨rfl, hle, hsq, by simp, hpf, by simp, hp, by simp⟩
    | sample =>
      simp only [Runtime.step, Runtime.samplerTick, Option.some.injEq] at hst
      subst hst
      exact ⟨rfl, hle, hsq, hrq, hpf, hce, hpc⟩
    | sleep =>
      simp only [Runtime.step, Option.some.injEq] at hst
      subst hst
      exact ⟨rfl, hle, hsq, hrq, hpf, hce, hpc⟩
  | producer r =>
    cases producer with
    | none => simp [Runtime.step] at hst
    | some pc =>
      have hmain : main = .goConsumer ∨ main = .sample ∨ main = .sleep := by
        cases main with
        | loop i => exact absurd hpc.2.2.1 (by simp)
        | parked i => exact absurd hpc (by simp)
        | goProducer => exact absurd hpc.2.1 (by simp)
        | goConsumer => exact Or.inl rfl
        | sample => exact Or.inr (Or.inl rfl)
        | sleep => exact Or.inr (Or.inr rfl)
      cases pc with
      | chanOp =>
        simp only [Option.some.injEq, reduceCtorEq, if_false] at hsq
        subst hsq
        by_cases hcp : consumer = some .parked
        · subst hcp
          simp only [if_true] at hrq
          subst hrq
          have hq0 := hce rfl
          subst hq0
          simp only [Runtime.step, Runtime.chansend, Runtime.wake, Option.some.injEq] at hst
          subst hst
          rcases hmain with h | h | h <;> subst h <;> simp_all [Runtime.Inv]
        · simp only [hcp, if_false] at hrq
          subst hrq
          by_cases hroom : qcount < 1000
          · simp only [Runtime.step, Runtime.chansend, Chan.send, hroom, if_true,
              Option.some.injEq] at hst
            subst hst
            rcases hmain with h | h | h <;> subst h <;> simp_all [Runtime.Inv] <;> omega
          · simp only [Runtime.step, Runtime.chansend, Chan.send, hroom, if_false,
              Option.some.injEq] at hst
            subst hst
            rcases hmain with h | h | h <;> subst h <;> simp_all [Runtime.Inv] <;> omega
      | parked => simp [Runtime.step] at hst
      | draw =>
        simp only [Option.some.injEq, reduceCtorEq, if_false] at hsq
        by_cases hr : 0 ≤ r ∧ r < 1000
        · simp only [Runtime.step, hr, and_self, if_true, Option.some.injEq] at hst
          subst hst
          rcases hmain with h | h | h <;> subst h <;> simp_all [Runtime.Inv]
        · simp [Runtime.step, hr] at hst
      | sleep d =>
        simp only [Option.some.injEq, reduceCtorEq, if_false] at hsq
        simp only [Runtime.step, Option.some.injEq] at hst
        subst hst
        rcases hmain with h | h | h <;> subst h <;> simp_all [Runtime.Inv]
  | consumer r =>
    cases consumer with
    | none => simp [Runtime.step] at hst
    | some pc =>
      have hmain : main = .sample ∨ main = .sleep := by
        cases main with
        | loop i => exact absurd hpc.2.2.2 (by simp)
        | parked i => exact absurd hpc (by simp)
        | goProducer => exact absurd hpc.2.2 (by simp)
        | goConsumer => exact absurd hpc.2 (by simp)
        | sample => exact Or.inl rfl
        | sleep => exact Or.inr rfl
      cases pc with
      | chanOp =>
        simp only [Option.some.injEq, reduceCtorEq, if_false] at hrq
        subst hrq
        by_cases hpp : producer = some .parked
        · subst hpp
          simp only [if_true] at hsq
          subst hsq
          have hq := hpf rfl
          subst hq
          simp only [Runtime.step, Runtime.chanrecv, Runtime.wake, Option.some.injEq] at hst
          subst hst
          rcases hmain with h | h <;> subst h <;> simp_all [Runtime.Inv]
        · simp only [hpp, if_false] at hsq
          subst hsq
          by_cases hpos : 0 < qcount
          · simp only [Runtime.step, Runtime.chanrecv, Chan.recv, hpos, if_true,
              Option.some.injEq] at hst
            subst hst
            rcases hmain with h | h <;> subst h <;> simp_all [Runtime.Inv] <;> omega
          · simp only [Runtime.step, Runtime.chanrecv, Chan.recv, hpos, if_false,
              Option.some.injEq] at hst
            subst hst
            rcases hmain with h | h <;> subst h <;> simp_all [Runtime.Inv]
      | parked => simp [Runtime.step] at hst
      | draw =>
        simp only [Option.some.injEq, reduceCtorEq, if_false] at hrq
        by_cases hr : 0 ≤ r ∧ r < 1000
        · simp only [Runtime.step, hr, and_self, if_true, Option.some.injEq] at hst
          subst hst
          rcases hmain with h | h <;> subst h <;> simp_all [Runtime.Inv]
        · simp [Runtime.step, hr] at hst
      | sleep d =>
        simp only [Option.some.injEq, reduceCtorEq, if_false] at hrq
        simp only [Runtime.step, Option.some.injEq] at hst
        subst hst
        rcases hmain with h | h <;> subst h <;> simp_all [Runtime.Inv]

theorem rt_inv_of_reachable {s : Runtime.State} (h : Runtime.Reachable s) : Runtime.Inv s := by
  induction h with
  | init => exact rt_inv_init
  | step g _ hst ih => exact rt_inv_step g ih hst

theorem rt_len_le_1000 {s : Runtime.State} (h : Runtime.Reachable s) :
    len s.email.buf ≤ 1000 ∧ cap s.email.buf = 1000 := by
  obtain ⟨hcap, hle, _⟩ := rt_inv_of_reachable h
  exact ⟨hle, hcap⟩

theorem rt_never_both_parked {s : Runtime.State} (h : Runtime.Reachable s) :
    ¬ (s.producer = some .parked ∧ s.consumer = some .parked) := by
  obtain ⟨_, _, _, _, hpf, hce, _⟩ := rt_inv_of_reachable h
  rintro ⟨hp, hc⟩
  have h1 := hpf hp
  have h2 := hce hc
  omega

theorem rt_main_never_parked {s : Runtime.State} (h : Runtime.Reachable s) (i : Nat) :
    s.main ≠ .parked i := by
  obtain ⟨_, _, _, _, _, _, hpc⟩ := rt_inv_of_reachable h
  intro hm
  rw [hm] at hpc
  exact hpc

theorem rt_producer_at_send_of_reachable {s : Runtime.State} (h : Runtime.Reachable s)
    (hp : s.producer = some .chanOp) :
    Runtime.producerStarted s ∧ s.email.sendq = [] ∧
      (s.email.recvq = [] ∨
        (s.email.recvq = [.consumer] ∧ s.consumer = some .parked ∧ len s.email.buf = 0)) := by
  obtain ⟨⟨buf, recvq, sendq⟩, main, producer, consumer, gauge⟩ := s
  obtain ⟨_, _, hsq, hrq, _, hce, hpc⟩ := rt_inv_of_reachable h
  simp only at hp hsq hrq hce hpc
  subst hp
  simp only [Option.some.injEq, reduceCtorEq, if_false] at hsq
  refine ⟨?_, hsq, ?_⟩
  · cases main with
    | loop i => exact absurd hpc.2.2.1 (by simp)
    | parked i => exact absurd hpc (by simp)
    | goProducer => exact absurd hpc.2.1 (by simp)
    | goConsumer => exact Or.inl rfl
    | sample => exact Or.inr (Or.inl rfl)
    | sleep => exact Or.inr (Or.inr rfl)
  · by_cases hc : consumer = some .parked
    · right
      simp only [hc, if_true] at hrq
      exact ⟨hrq, hc, hce hc⟩
    · left
      simpa [hc] using hrq

theorem rt_consumer_at_receive_of_reachable {s : Runtime.State} (h : Runtime.Reachable s)
    (hc : s.consumer = some .chanOp) :
    Runtime.started s ∧ s.email.recvq = [] ∧
      (s.email.sendq = [] ∨
        (s.email.sendq = [.producer] ∧ s.producer = some .parked ∧ 0 < len s.email.buf)) := by
  obtain ⟨⟨buf, recvq, sendq⟩, main, producer, consumer, gauge⟩ := s
  obtain ⟨_, _, hsq, hrq, hpf, _, hpc⟩ := rt_inv_of_reachable h
  simp only at hc hsq hrq hpf hpc
  subst hc
  simp only [Option.some.injEq, reduceCtorEq, if_false] at hrq
  refine ⟨?_, hrq, ?_⟩
  · cases main with
    | loop i => exact absurd hpc.2.2.2 (by simp)
    | parked i => exact absurd hpc (by simp)
    | goProducer => exact absurd hpc.2.2 (by simp)
    | goConsumer => exact absurd hpc.2 (by simp)
    | sample => exact Or.inl rfl
    | sleep => exact Or.inr rfl
  · by_cases hp : producer = some .parked
    · right
      simp only [hp, if_true] at hsq
      have hq := hpf hp
      exact ⟨hsq, hp, by unfold len; simp only; omega⟩
    · left
      simpa [hp] using hsq

/-! ## The claims -/

/-- C1: in every reachable state of the queue simulation (channel `email` of capacity 1000,
initially empty, changed only by the preload send, the producer send and the consumer receive, read
by the sampler) the occupancy satisfies `0 ≤ len(email) ≤ 1000`, and the capacity is still 1000. -/
theorem occupancy_within_capacity (s : State) (h : Reachable s) :
    0 ≤ len s.email ∧ len s.email ≤ 1000 ∧ cap s.email = 1000 := by
  obtain ⟨hcap, hle, _⟩ := inv_of_reachable h
  exact ⟨Nat.zero_le _, hle, hcap⟩

/-- Witness for C1: the state at the head of the preload loop after its 100 sends is reachable and
meets the bounds. -/
theorem occupancy_within_capacity_witness :
    Reachable { init with email := { dataqsiz := 1000, qcount := 100 }, main := .loop 100 } ∧
      (0 ≤ len ({ init with email := { dataqsiz := 1000, qcount := 100 },
                            main := .loop 100 } : State).email ∧
        len ({ init with email := { dataqsiz := 1000, qcount := 100 },
                         main := .loop 100 } : State).email ≤ 1000 ∧
        cap ({ init with email := { dataqsiz := 1000, qcount := 100 },
                         main := .loop 100 } : State).email = 1000) :=
  ⟨reachable_of_run _ _ _ Reachable.init (run_preload 100 (Nat.le_refl _)),
    occupancy_within_capacity _
      (reachable_of_run _ _ _ Reachable.init (run_preload 100 (Nat.le_refl _)))⟩

/-- C4: the preload loop performs 100 sends on the fresh, empty, capacity-1000 channel.  After `i`
iterations (`i ≤ 100`) the occupancy is `i`; in every reachable state inside the loop with `i < 100`
the send of line 84 proceeds (it is not parked) and adds one element; and when the loop has ended,
before the first `go` statement has run, the occupancy is exactly 100 and neither worker exists. -/
theorem preload_gives_100 :
    init.email = make 1000 ∧ len init.email = 0 ∧
      (∀ i : Nat, i ≤ 100 → simulateMessageQueueLength (List.replicate i Goroutine.main) =
        some { init with email := { dataqsiz := 1000, qcount := i }, main := .loop i }) ∧
      simulateMessageQueueLength (List.replicate 101 Goroutine.main) =
        some { init with email := { dataqsiz := 1000, qcount := 100 }, main := .goProducer } ∧
      (∀ (s : State) (i : Nat), Reachable s → s.main = .loop i → i < 100 →
        ∃ t : State, step .main s = some t ∧ len t.email = len s.email + 1 ∧
          t.main = .loop (i + 1)) ∧
      (∀ s : State, Reachable s → s.main = .goProducer →
        len s.email = 100 ∧ s.producer = none ∧ s.consumer = none) := by
  refine ⟨rfl, rfl, run_preload, ?_, ?_, ?_⟩
  · unfold simulateMessageQueueLength
    rw [List.replicate_succ', run_append, run_preload 100 (Nat.le_refl _)]
    rfl
  · intro s i hs hm hi
    obtain ⟨hcap, _, hpc⟩ := inv_of_reachable hs
    rw [hm] at hpc
    simp only at hpc
    refine ⟨_, step_main_loop s i hm hi (by omega), rfl, rfl⟩
  · intro s hs hm
    obtain ⟨_, _, hpc⟩ := inv_of_reachable hs
    rw [hm] at hpc
    exact hpc

/-- Witness for C4: the state reached by the 100 sends and the loop exit is reachable, and its
occupancy is 100 with no worker started. -/
theorem preload_gives_100_witness :
    len ({ init with email := { dataqsiz := 1000, qcount := 100 },
                     main := .goProducer } : State).email = 100 ∧
      ({ init with email := { dataqsiz := 1000, qcount := 100 },
                   main := .goProducer } : State).producer = none ∧
      ({ init with email := { dataqsiz := 1000, qcount := 100 },
                   main := .goProducer } : State).consumer = none :=
  preload_gives_100.2.2.2.2.2 _
    (reachable_of_run _ _ _ Reachable.init preload_gives_100.2.2.2.1) rfl

/-- C5: one sampler tick (line 102) on a state with previous gauge value `g` and occupancy
`n = len(email)` sets the gauge labelled `email` to exactly `n`: the result is the same for every
previous gauge, and differs from `g + n` whenever `g ≠ 0`.  The channel, the other gauge labels and
the worker goroutines are left unchanged.  The bound `n ≤ 2 ^ 53`, within which `float64(n)` is
exact, holds for every occupancy of the capacity-1000 channel. -/
theorem sampler_overwrites_gauge (s : State) (h : len s.email ≤ 2 ^ 53) :
    (samplerTick s).gauge.value "email" = (len s.email : ℚ) ∧
      (∀ g : GaugeVec, (samplerTick { s with gauge := g }).gauge.value "email" =
        (len s.email : ℚ)) ∧
      (s.gauge.value "email" ≠ 0 →
        (samplerTick s).gauge.value "email" ≠ s.gauge.value "email" + (len s.email : ℚ)) ∧
      (samplerTick s).email = s.email ∧ len (samplerTick s).email = len s.email ∧
      (∀ k : String, k ≠ "email" → (samplerTick s).gauge.value k = s.gauge.value k) ∧
      (samplerTick s).producer = s.producer ∧ (samplerTick s).consumer = s.consumer ∧
      (s.main = .sample → step .main s = some { samplerTick s with main := .sleep }) := by
  have hval : ∀ g : GaugeVec, (samplerTick { s with gauge := g }).gauge.value "email" =
      (len s.email : ℚ) := by
    intro g
    simp [samplerTick, GaugeVec.Set, float64_of_le h]
  refine ⟨hval s.gauge, hval, ?_, rfl, rfl, ?_, rfl, rfl, ?_⟩
  · intro hg
    rw [hval s.gauge]
    intro heq
    apply hg
    linarith
  · intro k hk
    simp [samplerTick, GaugeVec.Set, hk]
  · intro hm
    obtain ⟨email, main, producer, consumer, gauge⟩ := s
    simp only at hm
    subst hm
    rfl

/-- Witness for C5: with occupancy 100 and a previous gauge value 7, the tick sets the gauge to
100. -/
theorem sampler_overwrites_gauge_witness :
    (samplerTick { init with email := { dataqsiz := 1000, qcount := 100 }, main := .sample,
                             gauge := { value := fun _ => 7 } }).gauge.value "email" =
      ((100 : Nat) : ℚ) :=
  (sampler_overwrites_gauge
    { init with email := { dataqsiz := 1000, qcount := 100 }, main := .sample,
                gauge := { value := fun _ => 7 } } (by decide)).1

/-- C6: starting from the fresh counter, after `n` ticks of the loop of `simulateTotalRequests`,
whatever the `n` draws are, the value of (`/user/list`, `GET`, `200`) is exactly `n`; in
particular it is 10 after 10 ticks. -/
theorem list_counter_equals_ticks (draws : List Int) :
    (simulateTotalRequests draws totalRequests).value ("/user/list", "GET", "200") =
        draws.length ∧
      (draws.length = 10 →
        (simulateTotalRequests draws totalRequests).value ("/user/list", "GET", "200") = 10) := by
  have h := simulateTotalRequests_value_list draws totalRequests
  have h0 : totalRequests.value ("/user/list", "GET", "200") = 0 := rfl
  rw [h0, Nat.zero_add] at h
  exact ⟨h, fun h10 => h.trans h10⟩

/-- Witness for C6: ten ticks with mixed draws leave the value 10. -/
theorem list_counter_equals_ticks_witness :
    (simulateTotalRequests [0, 29, 30, 99, 5, 50, 12, 77, 31, 28] totalRequests).value
      ("/user/list", "GET", "200") = 10 :=
  (list_counter_equals_ticks [0, 29, 30, 99, 5, 50, 12, 77, 31, 28]).2 rfl

/-- C7: a tick with draw `r` adds one to exactly one of (`/user/add`, `POST`, `500`) and
(`/user/add`, `POST`, `200`) and leaves the other unchanged: the `500` one if and only if `r < 30`,
the `200` one otherwise.  Of the 100 values `0, ..., 99` of `rand.Intn(100)` exactly 30 select `500`
and exactly 70 select `200`. -/
theorem add_counter_split (r : Int) (c : CounterVec) :
    (code r = "500" ↔ r < 30) ∧ (code r = "200" ↔ ¬ r < 30) ∧
      (r < 30 →
        (tick r c).value ("/user/add", "POST", "500") =
            c.value ("/user/add", "POST", "500") + 1 ∧
          (tick r c).value ("/user/add", "POST", "200") = c.value ("/user/add", "POST", "200")) ∧
      (¬ r < 30 →
        (tick r c).value ("/user/add", "POST", "200") =
            c.value ("/user/add", "POST", "200") + 1 ∧
          (tick r c).value ("/user/add", "POST", "500") = c.value ("/user/add", "POST", "500")) ∧
      ((List.range 100).filter fun k => code (k : Int) = "500").length = 30 ∧
      ((List.range 100).filter fun k => code (k : Int) = "200").length = 70 := by
  refine ⟨?_, ?_, ?_, ?_, ?_, ?_⟩
  · unfold code
    by_cases h : r < 30 <;> simp [h]
  · unfold code
    by_cases h : r < 30 <;> simp [h]
  · intro h
    simp [tick, code, h, CounterVec.Inc]
  · intro h
    simp [tick, code, h, CounterVec.Inc]
  · decide
  · decide

/-- Witness for C7: the draw 29 increments the `500` combination, the draw 30 the `200` one. -/
theorem add_counter_split_witness :
    (tick 29 totalRequests).value ("/user/add", "POST", "500") =
        totalRequests.value ("/user/add", "POST", "500") + 1 ∧
      (tick 30 totalRequests).value ("/user/add", "POST", "200") =
        totalRequests.value ("/user/add", "POST", "200") + 1 :=
  ⟨((add_counter_split 29 totalRequests).2.2.1 (by decide)).1,
    ((add_counter_split 30 totalRequests).2.2.2.1 (by decide)).1⟩

/-- C8: for every label combination `l` of the request counter and every counter state, a tick of
`simulateTotalRequests` never lowers the value of `l`, nor does any sequence of ticks; hence of
two snapshots taken in sequence (after the ticks `d1`, then after the further ticks `d2`) the later
value of `l` is at least the earlier one. -/
theorem counter_never_decreases (l : Labels) (c : CounterVec) :
    (∀ r : Int, c.value l ≤ (tick r c).value l) ∧
      (∀ draws : List Int, c.value l ≤ (simulateTotalRequests draws c).value l) ∧
      (∀ d1 d2 : List Int,
        (simulateTotalRequests d1 c).value l ≤ (simulateTotalRequests (d1 ++ d2) c).value l) := by
  refine ⟨fun r => tick_value_ge r c l, fun draws => simulateTotalRequests_value_ge draws l c, ?_⟩
  intro d1 d2
  rw [simulateTotalRequests_append]
  exact simulateTotalRequests_value_ge d2 l _

/-- Witness for C8: the `500` combination after the draws 3, 40 and then after the further draw 7. -/
theorem counter_never_decreases_witness :
    (simulateTotalRequests [3, 40] totalRequests).value ("/user/add", "POST", "500") ≤
      (simulateTotalRequests ([3, 40] ++ [7]) totalRequests).value ("/user/add", "POST", "500") :=
  (counter_never_decreases ("/user/add", "POST", "500") totalRequests).2.2 [3, 40] [7]

/-- C9: for a draw `r` of `rand.Intn(1000)`, `0 ≤ r < 1000`, the duration
`time.Duration(r) * time.Millisecond` computed by the producer and by the consumer equals
`r * 1000000` nanoseconds, the exact product lies in the `int64` range (no overflow), the duration
is at least 0 and strictly below 1000 ms, distinct draws give distinct durations, and every
whole-millisecond value below 1000 ms is the duration of a draw.  Both workers go to sleep for
exactly that duration. -/
theorem sleep_duration_in_range (r : Int) (h0 : 0 ≤ r) (h1 : r < 1000) :
    sleepDuration r = r * 1000000 ∧
      (-2 ^ 63 ≤ r * Millisecond ∧ r * Millisecond < 2 ^ 63) ∧
      0 ≤ sleepDuration r ∧ sleepDuration r < 1000 * Millisecond ∧
      (∀ q : Int, 0 ≤ q → q < 1000 → sleepDuration q = sleepDuration r → q = r) ∧
      (∀ k : Int, 0 ≤ k → k < 1000 →
        ∃ q : Int, 0 ≤ q ∧ q < 1000 ∧ sleepDuration q = k * Millisecond) ∧
      (∀ s : State, s.producer = some .draw →
        step (.producer r) s = some { s with producer := some (.sleep (r * 1000000)) }) ∧
      (∀ s : State, s.consumer = some .draw →
        step (.consumer r) s = some { s with consumer := some (.sleep (r * 1000000)) }) := by
  have hr := sleepDuration_eq h0 h1
  refine ⟨hr, ⟨?_, ?_⟩, ?_, ?_, ?_, ?_, ?_, ?_⟩
  · unfold Millisecond; omega
  · unfold Millisecond; omega
  · rw [hr]; omega
  · rw [hr]; unfold Millisecond; omega
  · intro q hq0 hq1 heq
    rw [hr, sleepDuration_eq hq0 hq1] at heq
    omega
  · intro k hk0 hk1
    exact ⟨k, hk0, hk1, by rw [sleepDuration_eq hk0 hk1]; rfl⟩
  · intro s hs
    obtain ⟨email, main, producer, consumer, gauge⟩ := s
    simp only at hs
    subst hs
    simp [step, h0, h1, hr]
  · intro s hs
    obtain ⟨email, main, producer, consumer, gauge⟩ := s
    simp only at hs
    subst hs
    simp [step, h0, h1, hr]

/-- Witness for C9: the largest draw, 999, gives 999000000 ns. -/
theorem sleep_duration_in_range_witness : sleepDuration 999 = 999 * 1000000 :=
  (sleep_duration_in_range 999 (by decide) (by decide)).1

/-- C10: in every reachable state of the queue simulation the send or the receive on `email` can
proceed: the channel is never both full and empty, so the producer parked at line 88 and the
consumer parked at line 95 never occur together. -/
theorem never_both_blocked (s : State) (h : Reachable s) :
    ((s.email.send).isSome ∨ (s.email.recv).isSome) ∧
      ¬ (len s.email = cap s.email ∧ len s.email = 0) ∧
      ¬ (producerBlocked s ∧ consumerBlocked s) := by
  obtain ⟨hcap, hle, _⟩ := inv_of_reachable h
  have hen : (s.email.send).isSome ∨ (s.email.recv).isSome := by
    by_cases hroom : s.email.qcount < s.email.dataqsiz
    · left
      rw [Chan.send_of_lt hroom]
      rfl
    · right
      rw [Chan.recv_of_pos (by omega)]
      rfl
  refine ⟨hen, ?_, ?_⟩
  · unfold len cap
    omega
  · rintro ⟨⟨hp, hpb⟩, ⟨hc, hcb⟩⟩
    have hs := send_none_of_step_producer hp (hpb 0)
    have hr := recv_none_of_step_consumer hc (hcb 0)
    rw [hs, hr] at hen
    simp at hen

/-- Witness for C10: at the end of the preload loop the send can proceed. -/
theorem never_both_blocked_witness :
    (({ init with email := { dataqsiz := 1000, qcount := 100 },
                  main := .goProducer } : State).email.send).isSome ∨
      (({ init with email := { dataqsiz := 1000, qcount := 100 },
                    main := .goProducer } : State).email.recv).isSome :=
  (never_both_blocked _
    (reachable_of_run (List.replicate 101 Goroutine.main) init _ Reachable.init
      (by rw [List.replicate_succ', run_append, run_preload 100 (Nat.le_refl _)]; rfl))).1

/-- C2, as stated, fails in its own scenario (capacity 5, preload 2): after three sends of the
producer the occupancy is 5 and the fourth send parks the producer; the receive of the consumer
then completes the parked send within the same operation, so the occupancy after the dequeue is
5, not 4.  Likewise, from occupancy 1, once the consumer has received, slept and parked in its
next receive on the empty channel, a send of the producer hands it the token directly and leaves
the occupancy 0, not 1. -/
theorem scenario_dequeue_keeps_5 :
    (∃ p u : Runtime.State,
      Runtime.run (Runtime.producerRounds [0, 0, 0] ++ [.producer 0]) Runtime.scenario = some p ∧
      p.producer = some .parked ∧ len p.email.buf = 5 ∧
      Runtime.step (.consumer 0) p = some u ∧
      len u.email.buf = 5 ∧ len u.email.buf ≠ 4 ∧ u.producer = some .draw) ∧
    (∃ p u : Runtime.State,
      Runtime.run [.consumer 0, .consumer 0, .consumer 0, .consumer 0]
          (Runtime.withOccupancy Runtime.scenario 1) = some p ∧
      p.consumer = some .parked ∧ len p.email.buf = 0 ∧
      Runtime.step (.producer 0) p = some u ∧
      len u.email.buf = 0 ∧ len u.email.buf ≠ 1 ∧ u.producer = some .draw ∧
      u.consumer = some .draw) :=
  ⟨⟨{ Runtime.scenario with
        email := { buf := { dataqsiz := 5, qcount := 5 }, recvq := [], sendq := [.producer] },
        producer := some .parked },
      { Runtime.scenario with
        email := { buf := { dataqsiz := 5, qcount := 5 }, recvq := [], sendq := [] },
        producer := some .draw, consumer := some .draw },
      rfl, rfl, rfl, rfl, rfl, by decide, rfl⟩,
    ⟨{ Runtime.scenario with
        email := { buf := { dataqsiz := 5, qcount := 0 }, recvq := [.consumer], sendq := [] },
        consumer := some .parked },
      { Runtime.scenario with
        email := { buf := { dataqsiz := 5, qcount := 0 }, recvq := [], sendq := [] },
        producer := some .draw, consumer := some .draw },
      rfl, rfl, rfl, rfl, rfl, by decide, rfl, rfl⟩⟩

/-- C2, amended: with the producer started, at its send (line 88), and nobody parked on `email`
(no dequeue pending), one producer iteration per draw of `rs`, with no step of the consumer in
between and `k + N ≤ capacity` for `k = len(email)` and `N` the number of draws, runs through
without any send parking and leaves occupancy `k + N`.  When `k + N = capacity` the next send
parks the producer with the occupancy at capacity; as long as no receive is executed the producer
stays parked, no step of it is enabled and the occupancy stays at capacity; and a receive of the
consumer then completes the parked send within the same operation: the producer continues after
line 88 and the occupancy is still the capacity (not capacity - 1).  The hypotheses on the state
hold in every reachable state with the producer at its send and no receiver parked
(`rt_producer_at_send_of_reachable`). -/
theorem producer_fills_then_parks (s : Runtime.State) (rs : List Int)
    (hp : s.producer = some .chanOp) (hm : Runtime.producerStarted s)
    (hrq : s.email.recvq = []) (hsq : s.email.sendq = [])
    (hr : ∀ r ∈ rs, 0 ≤ r ∧ r < 1000)
    (h : len s.email.buf + rs.length ≤ cap s.email.buf) :
    Runtime.run (Runtime.producerRounds rs) s =
        some (Runtime.withOccupancy s (len s.email.buf + rs.length)) ∧
      Runtime.receiveFree (Runtime.producerRounds rs) s = true ∧
      (len s.email.buf + rs.length = cap s.email.buf →
        ∀ r : Int, ∃ p : Runtime.State,
          Runtime.step (.producer r) (Runtime.withOccupancy s (cap s.email.buf)) = some p ∧
          p.producer = some .parked ∧ len p.email.buf = cap s.email.buf ∧
          ∀ (gs : List Goroutine) (t : Runtime.State),
            Runtime.receiveFree gs p = true → Runtime.run gs p = some t →
              t.producer = some .parked ∧ len t.email.buf = cap s.email.buf ∧
              (∀ q : Int, Runtime.step (.producer q) t = none) ∧
              (t.consumer = some .chanOp → ∀ q : Int, ∃ u : Runtime.State,
                Runtime.step (.consumer q) t = some u ∧ u.producer = some .draw ∧
                u.consumer = some .draw ∧ len u.email.buf = cap s.email.buf)) := by
  refine ⟨rt_run_producerRounds rs s hp hrq hr h, rt_receiveFree_producerRounds rs s, ?_⟩
  intro _ r
  have hpark := rt_step_producer_parked (Runtime.withOccupancy s (cap s.email.buf)) r hp hrq
    (Nat.le_refl _)
  refine ⟨_, hpark, rfl, rfl, ?_⟩
  intro gs t hfree hrun
  have hJ : Runtime.producerParked
      { Runtime.withOccupancy s (cap s.email.buf) with
        email := { (Runtime.withOccupancy s (cap s.email.buf)).email with
          sendq := (Runtime.withOccupancy s (cap s.email.buf)).email.sendq ++ [.producer] },
        producer := some .parked } := by
    refine ⟨hm, rfl, ?_, hrq⟩
    simp [Runtime.withOccupancy, hsq]
  obtain ⟨⟨_, htp, htsq, _⟩, hte⟩ := rt_producerParked_run gs _ t hJ hfree hrun
  have hlen : len t.email.buf = cap s.email.buf := by
    rw [hte]
    rfl
  refine ⟨htp, hlen, fun q => rt_step_producer_of_parked t q htp, ?_⟩
  intro htc q
  exact ⟨_, rt_step_consumer_served t q htc htsq htp, rfl, rfl, hlen⟩

/-- Witness for C2, amended: in the scenario of capacity 5 and preload 2, three producer
iterations run through and give occupancy 5. -/
theorem producer_fills_then_parks_witness :
    Runtime.run (Runtime.producerRounds [0, 0, 0]) Runtime.scenario =
      some (Runtime.withOccupancy Runtime.scenario (len Runtime.scenario.email.buf + 3)) :=
  (producer_fills_then_parks Runtime.scenario [0, 0, 0] rfl (Or.inr (Or.inl rfl)) rfl rfl
    (by decide) (by decide)).1

/-- C3, as stated, fails in a reachable state: with the channel full (occupancy 1000) and the
producer parked in its send, the receive of the consumer is not blocked and returns a token, but
the occupancy after it is 1000, not 999. -/
theorem full_receive_keeps_1000 :
    Runtime.Reachable Runtime.fullParked ∧
      ∃ u : Runtime.State, Runtime.step (.consumer 0) Runtime.fullParked = some u ∧
        u.consumer = some .draw ∧ len u.email.buf = 1000 ∧
        len u.email.buf + 1 ≠ len Runtime.fullParked.email.buf :=
  ⟨rt_reachable_fullParked,
    { Runtime.fullParked with
      email := { buf := { dataqsiz := 1000, qcount := 1000 }, recvq := [], sendq := [] },
      producer := some .draw, consumer := some .draw },
    rfl, rfl, rfl, by decide⟩

/-- C3, amended: with both workers started, the consumer at its receive (line 95), no receiver
parked, and a sender parked only if it is the producer on a non-empty channel: the receive parks
the consumer if and only if the occupancy is 0.  Once parked, the consumer stays parked with the
occupancy at 0 as long as no send is executed, and a send of the producer then hands it the token
directly: the consumer continues after line 95 and the occupancy is still 0.  When the occupancy
is positive the receive returns a token at once; the resulting occupancy is the previous one
minus one when no sender is parked, and it is the previous one, unchanged, when the producer is
parked, whose send is completed within the receive.  The hypotheses on the state hold in every
reachable state with the consumer at its receive (`rt_consumer_at_receive_of_reachable`). -/
theorem consumer_receive_cases (s : Runtime.State) (r : Int)
    (hc : s.consumer = some .chanOp) (hm : Runtime.started s) (hrq : s.email.recvq = [])
    (hw : s.email.sendq = [] ∨
      (s.email.sendq = [.producer] ∧ s.producer = some .parked ∧ 0 < len s.email.buf)) :
    ((∃ t : Runtime.State, Runtime.step (.consumer r) s = some t ∧ t.consumer = some .parked) ↔
        len s.email.buf = 0) ∧
      (len s.email.buf = 0 → ∃ p : Runtime.State,
        Runtime.step (.consumer r) s = some p ∧ p.consumer = some .parked ∧
        len p.email.buf = 0 ∧
        ∀ (gs : List Goroutine) (t : Runtime.State),
          Runtime.sendFree gs p = true → Runtime.run gs p = some t →
            t.consumer = some .parked ∧ len t.email.buf = 0 ∧
            (∀ q : Int, Runtime.step (.consumer q) t = none) ∧
            (t.producer = some .chanOp → ∀ q : Int, ∃ u : Runtime.State,
              Runtime.step (.producer q) t = some u ∧ u.consumer = some .draw ∧
              u.producer = some .draw ∧ len u.email.buf = 0)) ∧
      (0 < len s.email.buf → s.email.sendq = [] → ∃ t : Runtime.State,
        Runtime.step (.consumer r) s = some t ∧ t.consumer = some .draw ∧
        len t.email.buf + 1 = len s.email.buf ∧ cap t.email.buf = cap s.email.buf ∧
        t.producer = s.producer) ∧
      (s.email.sendq = [.producer] → ∃ t : Runtime.State,
        Runtime.step (.consumer r) s = some t ∧ t.consumer = some .draw ∧
        t.producer = some .draw ∧ len t.email.buf = len s.email.buf ∧
        cap t.email.buf = cap s.email.buf ∧ t.email.sendq = []) := by
  have hempty : len s.email.buf = 0 → s.email.sendq = [] := by
    intro h0
    rcases hw with hw | ⟨_, _, hpos⟩
    · exact hw
    · omega
  have hserved : s.email.sendq = [.producer] → s.producer = some .parked := by
    intro hsq
    rcases hw with hw | ⟨_, hp, _⟩
    · rw [hw] at hsq
      exact absurd hsq (by simp)
    · exact hp
  refine ⟨⟨?_, ?_⟩, ?_, ?_, ?_⟩
  · rintro ⟨t, hst, htc⟩
    by_cases h0 : len s.email.buf = 0
    · exact h0
    · have hpos : 0 < s.email.buf.qcount := Nat.pos_of_ne_zero h0
      rcases hw with hw | ⟨hsq, hp, _⟩
      · rw [rt_step_consumer_buffered s r hc hw hpos, Option.some.injEq] at hst
        subst hst
        exact absurd htc (by simp)
      · rw [rt_step_consumer_served s r hc hsq hp, Option.some.injEq] at hst
        subst hst
        exact absurd htc (by simp)
  · intro h0
    exact ⟨_, rt_step_consumer_parked s r hc (hempty h0) h0, rfl⟩
  · intro h0
    refine ⟨_, rt_step_consumer_parked s r hc (hempty h0) h0, rfl, h0, ?_⟩
    intro gs t hfree hrun
    have hK : Runtime.consumerParked
        { s with email := { s.email with recvq := s.email.recvq ++ [.consumer] },
                 consumer := some .parked } := by
      refine ⟨hm, rfl, ?_, hempty h0, h0⟩
      simp [hrq]
    obtain ⟨⟨_, htc, htrq, _, _⟩, hte⟩ := rt_consumerParked_run gs _ t hK hfree hrun
    have hlen : len t.email.buf = 0 := by
      rw [hte]
      exact h0
    refine ⟨htc, hlen, fun q => rt_step_consumer_of_parked t q htc, ?_⟩
    intro htp q
    exact ⟨_, rt_step_producer_handed t q htp htrq htc, rfl, rfl, hlen⟩
  · intro hpos hsq
    refine ⟨_, rt_step_consumer_buffered s r hc hsq hpos, rfl, ?_, rfl, rfl⟩
    simp only [Runtime.withOccupancy, len]
    unfold len at hpos
    omega
  · intro hsq
    exact ⟨_, rt_step_consumer_served s r hc hsq (hserved hsq), rfl, rfl, rfl, rfl, rfl⟩

/-- Witness for C3, amended: in the reachable state with the channel full and the producer
parked, the receive of the consumer completes the parked send and leaves the occupancy as it
is. -/
theorem consumer_receive_cases_witness :
    ∃ t : Runtime.State, Runtime.step (.consumer 0) Runtime.fullParked = some t ∧
      t.consumer = some .draw ∧ t.producer = some .draw ∧
      len t.email.buf = len Runtime.fullParked.email.buf ∧
      cap t.email.buf = cap Runtime.fullParked.email.buf ∧ t.email.sendq = [] :=
  (consumer_receive_cases Runtime.fullParked 0 rfl (Or.inl rfl) rfl
    (Or.inr ⟨rfl, rfl, by decide⟩)).2.2.2 rfl

end GoApp
